import Mathlib

/-!
Verification of the crawl scheduling and resilience subsystem of the
enhanced web crawler (webscraper_code.py): URL validation and
normalization, the bounded retry state machine around page fetching,
the frontier queue with deduplication and depth gating, periodic
browser-session recycling, and the upsert-based persistence contract.

External collaborators (Selenium, BeautifulSoup, urllib, PostgreSQL)
are modelled at their interfaces: the browser session is an oracle
assigning each fetch attempt an outcome, `netloc` and `urljoin` are
oracle parameters, and the database is an explicit committed/pending
state with commit/rollback.
-/

namespace Webscraper

/-! ## String primitives (Python semantics, evaluable by the kernel) -/

/-- Model of Python str.rstrip applied to a character list: remove all
trailing characters equal to the stripped character set, here just '/'. -/
def rstripList (l : List Char) : List Char :=
  (l.reverse.dropWhile (fun c => c == '/')).reverse

/-- Model of Python url.rstrip applied with the slash argument, the only
normalization the source ever applies to a URL. -/
def rstripSlash (s : String) : String :=
  String.mk (rstripList s.data)

/-- Model of Python s.startswith(pre). -/
def startsWithL (s pre : String) : Bool :=
  pre.data.isPrefixOf s.data

/-- Model of Python s.endswith(post). -/
def endsWithL (s post : String) : Bool :=
  post.data.isSuffixOf s.data

/-- Model of Python s.lower(), character by character. -/
def toLowerL (s : String) : String :=
  String.mk (s.data.map Char.toLower)

/-- Model of the Python substring test kw in s over character lists. -/
def hasSubstr (kw : List Char) : List Char → Bool
  | [] => kw.isEmpty
  | c :: rest => kw.isPrefixOf (c :: rest) || hasSubstr kw rest

/-- Whitespace characters stripped by Python str.strip(). -/
def isPySpace (c : Char) : Bool :=
  c == ' ' || c == '\t' || c == '\n' || c == '\x0b' || c == '\x0c' || c == '\r'

/-- Model of Python s.strip(): drop leading and trailing whitespace. -/
def pyStrip (s : String) : String :=
  String.mk (((s.data.dropWhile isPySpace).reverse.dropWhile isPySpace).reverse)

/-! ## Data model -/

/-- Fields the extractor pulls from the rendered markup of a page, at the
interface to BeautifulSoup. `titleString` is Python soup.title.string:
none when the title element is absent or has no string child; the heading
and meta fields are carried as the already-joined strings the source
builds. -/
structure Extracted where
  titleString : Option String
  content : String
  h1_tags : String
  h2_tags : String
  h3_tags : String
  meta_description : String
  meta_keywords : String
deriving DecidableEq, Repr

/-- Outcome of one navigation attempt by the browser session: a rendered
page together with its outbound anchor hrefs, a TimeoutException, or any
other exception. -/
inductive FetchOutcome where
  | ok (e : Extracted) (links : List String)
  | timeout
  | exn
deriving DecidableEq, Repr

/-- True when the attempt rendered a page. -/
def FetchOutcome.isOk : FetchOutcome → Bool
  | .ok _ _ => true
  | _ => false

/-- The scraped_data / failed_data dictionary built by
scrape_page_with_retry. `retry_count` is an Option because the failure
dictionaries omit that key; insert_data reads it with .get and default
column value 0. -/
structure ScrapedData where
  url : String
  title : String
  content : String
  h1_tags : String
  h2_tags : String
  h3_tags : String
  meta_description : String
  meta_keywords : String
  page_depth : Nat
  retry_count : Option Nat
  status : String
deriving DecidableEq, Repr

/-- One row of the pages table, the persisted shape of a ScrapedData
dictionary (server-assigned id and timestamp are not modelled). -/
structure PageRow where
  url : String
  title : String
  content : String
  h1_tags : String
  h2_tags : String
  h3_tags : String
  meta_description : String
  meta_keywords : String
  page_depth : Nat
  retry_count : Nat
  status : String
deriving DecidableEq, Repr

/-- The tuple insert_data binds into the INSERT statement:
scraped_data.get('retry_count', 0) supplies 0 when the key is absent. -/
def toRow (d : ScrapedData) : PageRow :=
  { url := d.url
    title := d.title
    content := d.content
    h1_tags := d.h1_tags
    h2_tags := d.h2_tags
    h3_tags := d.h3_tags
    meta_description := d.meta_description
    meta_keywords := d.meta_keywords
    page_depth := d.page_depth
    retry_count := d.retry_count.getD 0
    status := d.status }

/-! ## Persistence sink (insert_data) -/

/-- A PostgreSQL connection: rows visible to other transactions
(committed) and the state of the current transaction (pending). -/
structure PgConn where
  committed : List PageRow
  pending : List PageRow
deriving DecidableEq, Repr

/-- INSERT ... ON CONFLICT (url) DO UPDATE: replace the row with the
same url key, otherwise append. -/
def upsertRow (rows : List PageRow) (r : PageRow) : List PageRow :=
  if rows.any (fun q => q.url == r.url) then
    rows.map (fun q => if q.url == r.url then r else q)
  else
    rows ++ [r]

/-- Model of insert_data: execute the upsert and commit; when the
statement raises a database error (dbError), the except branch rolls the
transaction back, discarding the pending work, and returns normally
(the source catches psycopg2.Error, so no exception escapes). -/
def insert_data (conn : PgConn) (d : ScrapedData) (dbError : Bool) : PgConn :=
  let pending' := upsertRow conn.pending (toRow d)
  if dbError then
    { committed := conn.committed, pending := conn.committed }
  else
    { committed := pending', pending := pending' }

/-! ## Title extraction -/

/-- Model of the title expression in scrape_page_with_retry:
soup.title.string.strip() if soup.title and soup.title.string else
'No Title'. A missing element or missing string child is none; the empty
string is falsy in Python, so it also falls to the sentinel; any other
string is stripped. -/
def extractTitle (titleString : Option String) : String :=
  match titleString with
  | none => "No Title"
  | some s => if s = "" then "No Title" else pyStrip s

/-! ## Retry state machine (scrape_page_with_retry) -/

/-- The scraped_data dictionary built on a successful attempt. -/
def successData (url : String) (depth retry_count : Nat) (e : Extracted) : ScrapedData :=
  { url := rstripSlash url
    title := extractTitle e.titleString
    content := e.content
    h1_tags := e.h1_tags
    h2_tags := e.h2_tags
    h3_tags := e.h3_tags
    meta_description := e.meta_description
    meta_keywords := e.meta_keywords
    page_depth := depth
    retry_count := some retry_count
    status := "success" }

/-- The failed_data dictionary built when retries are exhausted. Note it
carries no retry_count key (none). -/
def failedData (url : String) (depth : Nat) (title status : String) : ScrapedData :=
  { url := rstripSlash url
    title := title
    content := ""
    h1_tags := ""
    h2_tags := ""
    h3_tags := ""
    meta_description := ""
    meta_keywords := ""
    page_depth := depth
    retry_count := none
    status := status }

/-- Result of one call chain of scrape_page_with_retry: the insert_data
calls it performed in order, the returned dictionary, the returned
success flag, the links of the page source left in the driver (empty on
failure; the crawl loop only reads them on success), and the number of
navigation attempts performed. -/
structure ScrapeResult where
  upserts : List ScrapedData
  record : ScrapedData
  ok : Bool
  links : List String
  attempts : Nat
deriving DecidableEq, Repr

/-- Recursion core of scrape_page_with_retry, structural in
`remaining` = maxRetries - retry_count, the number of retries still
allowed: the source guard retry_count < MAX_RETRIES is exactly
`remaining` being a successor. `fetch` is the session oracle giving the
outcome of the attempt made with a given retry_count. -/
def scrapeAux (fetch : Nat → FetchOutcome) (url : String) (depth : Nat) :
    Nat → Nat → ScrapeResult
  | retry_count, 0 =>
    match fetch retry_count with
    | .ok e links =>
      let d := successData url depth retry_count e
      { upserts := [d], record := d, ok := true, links := links, attempts := 1 }
    | .timeout =>
      let d := failedData url depth "Failed to load" "failed"
      { upserts := [d], record := d, ok := false, links := [], attempts := 1 }
    | .exn =>
      let d := failedData url depth "Error occurred" "error"
      { upserts := [d], record := d, ok := false, links := [], attempts := 1 }
  | retry_count, remaining + 1 =>
    match fetch retry_count with
    | .ok e links =>
      let d := successData url depth retry_count e
      { upserts := [d], record := d, ok := true, links := links, attempts := 1 }
    | .timeout =>
      let r := scrapeAux fetch url depth (retry_count + 1) remaining
      { r with attempts := r.attempts + 1 }
    | .exn =>
      let r := scrapeAux fetch url depth (retry_count + 1) remaining
      { r with attempts := r.attempts + 1 }

/-- scrape_page_with_retry(driver, url, depth, conn, retry_count): the
driver and conn are replaced by the fetch oracle and the upsert log. -/
def scrape_page_with_retry (fetch : Nat → FetchOutcome) (maxRetries : Nat)
    (url : String) (depth : Nat) (retry_count : Nat) : ScrapeResult :=
  scrapeAux fetch url depth retry_count (maxRetries - retry_count)

/-- Sanity unfolding: scrape_page_with_retry satisfies the recursive
equations of the Python source, with the retry guard
retry_count < MAX_RETRIES and the self-call at retry_count + 1. -/
theorem scrape_page_with_retry_unfold (fetch : Nat → FetchOutcome) (maxRetries : Nat)
    (url : String) (depth : Nat) (retry_count : Nat) :
    scrape_page_with_retry fetch maxRetries url depth retry_count =
      match fetch retry_count with
      | .ok e links =>
        let d := successData url depth retry_count e
        { upserts := [d], record := d, ok := true, links := links, attempts := 1 }
      | .timeout =>
        if retry_count < maxRetries then
          let r := scrape_page_with_retry fetch maxRetries url depth (retry_count + 1)
          { r with attempts := r.attempts + 1 }
        else
          let d := failedData url depth "Failed to load" "failed"
          { upserts := [d], record := d, ok := false, links := [], attempts := 1 }
      | .exn =>
        if retry_count < maxRetries then
          let r := scrape_page_with_retry fetch maxRetries url depth (retry_count + 1)
          { r with attempts := r.attempts + 1 }
        else
          let d := failedData url depth "Error occurred" "error"
          { upserts := [d], record := d, ok := false, links := [], attempts := 1 } := by
  unfold scrape_page_with_retry
  rcases hr : maxRetries - retry_count with _ | r
  · have hge : ¬ retry_count < maxRetries := by omega
    cases hf : fetch retry_count <;> simp [scrapeAux, hf, hge]
  · have hlt : retry_count < maxRetries := by omega
    have hr2 : maxRetries - (retry_count + 1) = r := by omega
    cases hf : fetch retry_count <;> simp [scrapeAux, hf, hlt, hr2]

/-! ## Validator (is_valid_url) -/

/-- The hard-coded skip_extensions list of is_valid_url. -/
def skip_extensions : List String :=
  [".pdf", ".jpg", ".jpeg", ".png", ".gif", ".bmp", ".svg", ".zip", ".rar",
   ".mp3", ".mp4", ".avi", ".mov", ".css", ".js", ".xml", ".json", ".txt"]

/-- Model of is_valid_url(url, domain, visited). The source is a chain of
early returns; here it is the equivalent short-circuit conjunction, in the
source's order: scheme/fragment prefixes, netloc equality on the
rstrip-normalized URL, visited membership, skip extensions and skip
keywords on the lowercased normalized URL. `netloc` stands for
urllib.parse.urlparse(.).netloc and `skipKeywords` for the configured
SKIP_KEYWORDS list. -/
def is_valid_url (netloc : String → String) (skipKeywords : List String)
    (url : String) (domain : String) (visited : List String) : Bool :=
  let normalized_url := rstripSlash url
  !(url == "" || startsWithL url "mailto:" || startsWithL url "tel:" ||
      startsWithL url "#" || startsWithL url "javascript:")
  && (netloc normalized_url == domain)
  && !(decide (normalized_url ∈ visited))
  && !(skip_extensions.any (fun ext => endsWithL (toLowerL normalized_url) ext))
  && !(skipKeywords.any (fun kw => hasSubstr kw.data (toLowerL normalized_url).data))

/-! ## Crawl loop (crawl_website) -/

/-- Configuration drawn from the environment: crawl domain, MAX_DEPTH,
DRIVER_RESTART_INTERVAL, MAX_RETRIES, PAGE_LIMIT (0 meaning no limit)
and SKIP_KEYWORDS. -/
structure Config where
  domain : String
  maxDepth : Nat
  restartInterval : Nat
  maxRetries : Nat
  pageLimit : Nat
  skipKeywords : List String

/-- Observable events of the crawl loop, in program order: the fetch
attempt sequence for the n-th accepted page (scrape_page_with_retry is
one event because no recycling can happen inside it), and a driver
restart. -/
inductive CrawlEvent where
  | page (url : String) (n : Nat)
  | recycle
deriving DecidableEq, Repr

/-- State of crawl_website's main loop, plus instrumentation logs:
events, the (url, depth) pairs actually fetched, the entries appended to
the frontier by link discovery, and the insert_data calls performed. -/
structure CrawlState where
  queue : List (String × Nat)
  visited : List String
  pagesCount : Nat
  events : List CrawlEvent
  fetched : List (String × Nat)
  enqueuedLog : List (String × Nat)
  upserts : List ScrapedData
deriving DecidableEq, Repr

/-- Initial state: urls_to_visit = deque([(START_URL, 0)]), empty
visited set, zero pages scraped. -/
def initState (start_url : String) : CrawlState :=
  { queue := [(start_url, 0)], visited := [], pagesCount := 0,
    events := [], fetched := [], enqueuedLog := [], upserts := [] }

/-- The link-discovery for loop: for each href in anchor order, build
full_url = urljoin(base, href), scan the current queue for an entry with
the same rstrip-normalized URL, and append (full_url, depth + 1) when it
is new and is_valid_url accepts it. The queue argument threads through so
later hrefs see earlier appends, as in the source. -/
def enqueueLinks (netloc : String → String) (urljoin : String → String → String)
    (skipKeywords : List String) (domain : String) (visited : List String)
    (base : String) (current_depth : Nat) :
    List String → List (String × Nat) → List (String × Nat)
  | [], queue => queue
  | href :: rest, queue =>
    let full_url := urljoin base href
    let is_already_in_queue :=
      queue.any (fun p => rstripSlash p.1 == rstripSlash full_url)
    if !is_already_in_queue &&
        is_valid_url netloc skipKeywords full_url domain visited then
      enqueueLinks netloc urljoin skipKeywords domain visited base current_depth
        rest (queue ++ [(full_url, current_depth + 1)])
    else
      enqueueLinks netloc urljoin skipKeywords domain visited base current_depth
        rest queue

/-- One iteration of the main while loop past the page-limit check:
dequeue, normalize, re-validate (skip on rejection or excessive depth),
mark visited, count the page, restart the driver when the counter hits
the restart interval (this happens before the page's fetch), run the
retry machine, and on success below MAX_DEPTH run link discovery.
`site` gives each normalized URL its per-attempt fetch outcomes. -/
def crawl_step (cfg : Config) (netloc : String → String)
    (urljoin : String → String → String)
    (site : String → Nat → FetchOutcome) (st : CrawlState) : CrawlState :=
  match st.queue with
  | [] => st
  | (current_url, current_depth) :: rest =>
    let normalized_url := rstripSlash current_url
    if is_valid_url netloc cfg.skipKeywords normalized_url cfg.domain st.visited = false
        ∨ cfg.maxDepth < current_depth then
      { st with queue := rest }
    else
      let visited' := st.visited ++ [normalized_url]
      let count' := st.pagesCount + 1
      let recycleEvents : List CrawlEvent :=
        if 0 < count' ∧ count' % cfg.restartInterval = 0 then [.recycle] else []
      let res := scrape_page_with_retry (site normalized_url) cfg.maxRetries
        normalized_url current_depth 0
      let queue' :=
        if current_depth < cfg.maxDepth ∧ res.ok = true then
          enqueueLinks netloc urljoin cfg.skipKeywords cfg.domain visited'
            normalized_url current_depth res.links rest
        else rest
      { queue := queue'
        visited := visited'
        pagesCount := count'
        events := st.events ++ recycleEvents ++ [.page normalized_url count']
        fetched := st.fetched ++ [(normalized_url, current_depth)]
        enqueuedLog := st.enqueuedLog ++ queue'.drop rest.length
        upserts := st.upserts ++ res.upserts }

/-- The main while loop, with explicit fuel (the source loop terminates
because every fetch consumes a queue entry and enqueues only finitely
many links; all theorems below hold for every fuel value). Each pass
first checks emptiness, then the PAGE_LIMIT stop condition, then runs
one iteration. -/
def crawl_loop (cfg : Config) (netloc : String → String)
    (urljoin : String → String → String)
    (site : String → Nat → FetchOutcome) : Nat → CrawlState → CrawlState
  | 0, st => st
  | fuel + 1, st =>
    match st.queue with
    | [] => st
    | _ :: _ =>
      if 0 < cfg.pageLimit ∧ cfg.pageLimit ≤ st.pagesCount then st
      else
        crawl_loop cfg netloc urljoin site fuel
          (crawl_step cfg netloc urljoin site st)

/-! ## Run startup (database reset before schema creation) -/

/-- Schema-level state of the database: none when the pages table does
not exist, otherwise its rows. -/
structure DbState where
  pages : Option (List PageRow)
deriving DecidableEq, Repr

/-- Model of cursor.execute('TRUNCATE TABLE pages;'): raises a database
error when the table does not exist, otherwise empties it. -/
def truncate_pages (db : DbState) : Except String DbState :=
  match db.pages with
  | none => .error "relation pages does not exist"
  | some _ => .ok { pages := some [] }

/-- Model of create_tables: CREATE TABLE IF NOT EXISTS pages. -/
def create_tables (db : DbState) : DbState :=
  match db.pages with
  | none => { pages := some [] }
  | some _ => db

/-- Startup and main loop of crawl_website, beginning after the
connection is established: the source truncates the pages table first
and only then calls create_tables; a psycopg2 error from the truncation
propagates to the top-level except handler of crawl_website, so the
driver is never created and the crawl loop is never entered (the
finally block then reports zero pages). -/
def crawl_website (db : DbState) (cfg : Config) (netloc : String → String)
    (urljoin : String → String → String) (site : String → Nat → FetchOutcome)
    (start_url : String) (fuel : Nat) : DbState × CrawlState :=
  match truncate_pages db with
  | .error _ => (db, initState start_url)
  | .ok db1 =>
    let db2 := create_tables db1
    (db2, crawl_loop cfg netloc urljoin site fuel (initState start_url))

/-! ## Helper lemmas: string normalization -/

/-- rstripList is idempotent: once the trailing slashes are gone, there
is nothing left to strip. -/
theorem rstripList_idem (l : List Char) : rstripList (rstripList l) = rstripList l := by
  unfold rstripList
  rw [List.reverse_reverse, List.dropWhile_idempotent]

/-- Normalization idempotence: normalize(normalize(u)) = normalize(u). -/
theorem rstripSlash_idem (s : String) : rstripSlash (rstripSlash s) = rstripSlash s := by
  show String.mk (rstripList (rstripList s.data)) = String.mk (rstripList s.data)
  rw [rstripList_idem]

/-! ## Helper lemmas: validator -/

/-- A URL whose normalized form is already in the visited set is
rejected: the visited-set comparison inside is_valid_url is made on the
rstrip-normalized URL. -/
theorem is_valid_url_of_visited (netloc : String → String) (kws : List String)
    (url domain : String) (visited : List String)
    (h : rstripSlash url ∈ visited) :
    is_valid_url netloc kws url domain visited = false := by
  have hd : decide (rstripSlash url ∈ visited) = true := decide_eq_true h
  simp [is_valid_url, hd]

/-- Conversely, acceptance implies the normalized URL was not visited. -/
theorem is_valid_url_not_visited (netloc : String → String) (kws : List String)
    (url domain : String) (visited : List String)
    (h : is_valid_url netloc kws url domain visited = true) :
    rstripSlash url ∉ visited := by
  intro hmem
  rw [is_valid_url_of_visited netloc kws url domain visited hmem] at h
  cases h

/-! ## Helper lemmas: retry state machine -/

/-- Every call chain performs exactly one insert_data call, on the
dictionary it returns. -/
theorem scrapeAux_upserts (fetch : Nat → FetchOutcome) (url : String) (depth : Nat) :
    ∀ remaining retry_count,
      (scrapeAux fetch url depth retry_count remaining).upserts =
        [(scrapeAux fetch url depth retry_count remaining).record] := by
  intro remaining
  induction remaining with
  | zero => intro rc; cases hf : fetch rc <;> simp [scrapeAux, hf]
  | succ r ih => intro rc; cases hf : fetch rc <;> simp [scrapeAux, hf, ih]

/-- The attempt count is bounded by the remaining retries plus the one
attempt every level makes. -/
theorem scrapeAux_attempts (fetch : Nat → FetchOutcome) (url : String) (depth : Nat) :
    ∀ remaining retry_count,
      (scrapeAux fetch url depth retry_count remaining).attempts ≤ remaining + 1 := by
  intro remaining
  induction remaining with
  | zero => intro rc; cases hf : fetch rc <;> simp [scrapeAux, hf]
  | succ r ih =>
    intro rc
    cases hf : fetch rc <;> simp [scrapeAux, hf]
    · have := ih (rc + 1); omega
    · have := ih (rc + 1); omega

/-- The retry_count that reaches the database from any dictionary the
machine inserts is at most retry_count + remaining: a success at level k
records k, a terminal failure records the .get default 0. -/
theorem scrapeAux_retry_bound (fetch : Nat → FetchOutcome) (url : String) (depth : Nat) :
    ∀ remaining retry_count rec,
      rec ∈ (scrapeAux fetch url depth retry_count remaining).upserts →
        (toRow rec).retry_count ≤ retry_count + remaining := by
  intro remaining
  induction remaining with
  | zero =>
    intro rc rec hrec
    cases hf : fetch rc <;> simp [scrapeAux, hf] at hrec <;>
      simp [hrec, toRow, successData, failedData, Option.getD]
  | succ r ih =>
    intro rc rec hrec
    cases hf : fetch rc <;> simp [scrapeAux, hf] at hrec
    · simp [hrec, toRow, successData, Option.getD]
    · have := ih (rc + 1) rec hrec
      omega
    · have := ih (rc + 1) rec hrec
      omega

/-- Every dictionary the machine inserts is keyed by the
rstrip-normalized input URL. -/
theorem scrapeAux_url (fetch : Nat → FetchOutcome) (url : String) (depth : Nat) :
    ∀ remaining retry_count rec,
      rec ∈ (scrapeAux fetch url depth retry_count remaining).upserts →
        rec.url = rstripSlash url := by
  intro remaining
  induction remaining with
  | zero =>
    intro rc rec hrec
    cases hf : fetch rc <;> simp [scrapeAux, hf] at hrec <;>
      simp [hrec, successData, failedData]
  | succ r ih =>
    intro rc rec hrec
    cases hf : fetch rc <;> simp [scrapeAux, hf] at hrec
    · simp [hrec, successData]
    · exact ih (rc + 1) rec hrec
    · exact ih (rc + 1) rec hrec

/-- The terminal record of an exhausted attempt sequence, determined by
the kind of the last exception. -/
def exhaustRecord (fetch : Nat → FetchOutcome) (url : String) (depth lastAttempt : Nat) :
    ScrapedData :=
  match fetch lastAttempt with
  | .timeout => failedData url depth "Failed to load" "failed"
  | _ => failedData url depth "Error occurred" "error"

/-- When every attempt up to the cap fails, the machine runs all
remaining + 1 attempts and resolves to the terminal failure record of
the last attempt, inserting it exactly once. -/
theorem scrapeAux_exhaust (fetch : Nat → FetchOutcome) (url : String) (depth : Nat) :
    ∀ remaining retry_count,
      (∀ i, retry_count ≤ i → i ≤ retry_count + remaining → (fetch i).isOk = false) →
      scrapeAux fetch url depth retry_count remaining =
        { upserts := [exhaustRecord fetch url depth (retry_count + remaining)],
          record := exhaustRecord fetch url depth (retry_count + remaining),
          ok := false, links := [], attempts := remaining + 1 } := by
  intro remaining
  induction remaining with
  | zero =>
    intro rc hfail
    have h0 := hfail rc (Nat.le_refl rc) (by omega)
    cases hf : fetch rc
    · rw [hf] at h0; cases h0
    · simp [scrapeAux, hf, exhaustRecord]
    · simp [scrapeAux, hf, exhaustRecord]
  | succ r ih =>
    intro rc hfail
    have h0 := hfail rc (Nat.le_refl rc) (by omega)
    have hnext : ∀ i, rc + 1 ≤ i → i ≤ rc + 1 + r → (fetch i).isOk = false := by
      intro i h1 h2
      exact hfail i (by omega) (by omega)
    have hsum : rc + 1 + r = rc + (r + 1) := by omega
    cases hf : fetch rc
    · rw [hf] at h0; cases h0
    · rw [show scrapeAux fetch url depth rc (r + 1) =
          (let res := scrapeAux fetch url depth (rc + 1) r
           { res with attempts := res.attempts + 1 }) by simp [scrapeAux, hf]]
      simp [ih (rc + 1) hnext, hsum]
    · rw [show scrapeAux fetch url depth rc (r + 1) =
          (let res := scrapeAux fetch url depth (rc + 1) r
           { res with attempts := res.attempts + 1 }) by simp [scrapeAux, hf]]
      simp [ih (rc + 1) hnext, hsum]

/-! ## Helper lemmas: crawl loop -/

/-- Any property preserved by one loop iteration holds after any number
of iterations. -/
theorem crawl_loop_inv (cfg : Config) (netloc : String → String)
    (urljoin : String → String → String) (site : String → Nat → FetchOutcome)
    (P : CrawlState → Prop)
    (hstep : ∀ st, P st → P (crawl_step cfg netloc urljoin site st)) :
    ∀ fuel st, P st → P (crawl_loop cfg netloc urljoin site fuel st) := by
  intro fuel
  induction fuel with
  | zero => intro st h; exact h
  | succ n ih =>
    intro st h
    rw [crawl_loop]
    cases hq : st.queue with
    | nil => exact h
    | cons a t =>
      by_cases hlim : 0 < cfg.pageLimit ∧ cfg.pageLimit ≤ st.pagesCount
      · rw [if_pos hlim]; exact h
      · rw [if_neg hlim]; exact ih _ (hstep st h)

/-- An empty frontier ends the run immediately. -/
theorem crawl_loop_queue_nil (cfg : Config) (netloc : String → String)
    (urljoin : String → String → String) (site : String → Nat → FetchOutcome)
    (fuel : Nat) (st : CrawlState) (h : st.queue = []) :
    crawl_loop cfg netloc urljoin site fuel st = st := by
  cases fuel with
  | zero => rfl
  | succ n => rw [crawl_loop, h]

/-- Shape of one accepted iteration: when the head entry passes
revalidation and the depth gate, crawl_step produces exactly the record
written in its definition. Stated once so the per-claim step lemmas can
rewrite with it. -/
theorem crawl_step_accept (cfg : Config) (netloc : String → String)
    (urljoin : String → String → String) (site : String → Nat → FetchOutcome)
    (st : CrawlState) (current_url : String) (current_depth : Nat)
    (rest : List (String × Nat))
    (hq : st.queue = (current_url, current_depth) :: rest)
    (hok : ¬ (is_valid_url netloc cfg.skipKeywords (rstripSlash current_url)
        cfg.domain st.visited = false ∨ cfg.maxDepth < current_depth)) :
    crawl_step cfg netloc urljoin site st =
      (let normalized_url := rstripSlash current_url
       let visited' := st.visited ++ [normalized_url]
       let count' := st.pagesCount + 1
       let recycleEvents : List CrawlEvent :=
         if 0 < count' ∧ count' % cfg.restartInterval = 0 then [.recycle] else []
       let res := scrape_page_with_retry (site normalized_url) cfg.maxRetries
         normalized_url current_depth 0
       let queue' :=
         if current_depth < cfg.maxDepth ∧ res.ok = true then
           enqueueLinks netloc urljoin cfg.skipKeywords cfg.domain visited'
             normalized_url current_depth res.links rest
         else rest
       { queue := queue'
         visited := visited'
         pagesCount := count'
         events := st.events ++ recycleEvents ++ [.page normalized_url count']
         fetched := st.fetched ++ [(normalized_url, current_depth)]
         enqueuedLog := st.enqueuedLog ++ queue'.drop rest.length
         upserts := st.upserts ++ res.upserts }) := by
  unfold crawl_step
  rw [hq]
  simp only [if_neg hok]

/-- Shape of one rejected iteration: the entry is dropped and only the
queue changes. -/
theorem crawl_step_reject (cfg : Config) (netloc : String → String)
    (urljoin : String → String → String) (site : String → Nat → FetchOutcome)
    (st : CrawlState) (current_url : String) (current_depth : Nat)
    (rest : List (String × Nat))
    (hq : st.queue = (current_url, current_depth) :: rest)
    (hbad : is_valid_url netloc cfg.skipKeywords (rstripSlash current_url)
        cfg.domain st.visited = false ∨ cfg.maxDepth < current_depth) :
    crawl_step cfg netloc urljoin site st = { st with queue := rest } := by
  unfold crawl_step
  rw [hq]
  simp only [if_pos hbad]

/-- Entries appended by link discovery all carry the parent's depth plus
one; everything else in the output was already queued. -/
theorem enqueueLinks_mem (netloc : String → String)
    (urljoin : String → String → String) (kws : List String)
    (domain : String) (visited : List String) (base : String) (d : Nat) :
    ∀ hrefs (queue : List (String × Nat)) e,
      e ∈ enqueueLinks netloc urljoin kws domain visited base d hrefs queue →
        e ∈ queue ∨ e.2 = d + 1 := by
  intro hrefs
  induction hrefs with
  | nil => intro queue e he; exact Or.inl he
  | cons href rest ih =>
    intro queue e he
    rw [enqueueLinks] at he
    by_cases hc : (!(queue.any (fun p => rstripSlash p.1 == rstripSlash (urljoin base href))) &&
        is_valid_url netloc kws (urljoin base href) domain visited) = true
    · rw [if_pos hc] at he
      rcases ih _ e he with hin | hd
      · rcases List.mem_append.1 hin with h1 | h2
        · exact Or.inl h1
        · right
          rw [List.mem_singleton.1 h2]
      · exact Or.inr hd
    · rw [if_neg hc] at he
      exact ih _ e he

/-- Link discovery preserves the pending-queue invariant that no two
queued entries share an rstrip-normalized URL: the duplicate scan
compares normalized forms before every append. -/
theorem enqueueLinks_pairwise (netloc : String → String)
    (urljoin : String → String → String) (kws : List String)
    (domain : String) (visited : List String) (base : String) (d : Nat) :
    ∀ hrefs (queue : List (String × Nat)),
      queue.Pairwise (fun a b => rstripSlash a.1 ≠ rstripSlash b.1) →
      (enqueueLinks netloc urljoin kws domain visited base d hrefs queue).Pairwise
        (fun a b => rstripSlash a.1 ≠ rstripSlash b.1) := by
  intro hrefs
  induction hrefs with
  | nil => intro queue h; exact h
  | cons href rest ih =>
    intro queue h
    rw [enqueueLinks]
    by_cases hc : (!(queue.any (fun p => rstripSlash p.1 == rstripSlash (urljoin base href))) &&
        is_valid_url netloc kws (urljoin base href) domain visited) = true
    · rw [if_pos hc]
      apply ih
      rw [List.pairwise_append]
      refine ⟨h, List.pairwise_singleton _ _, ?_⟩
      intro a ha b hb
      rw [List.mem_singleton.1 hb]
      rw [Bool.and_eq_true, Bool.not_eq_true'] at hc
      have hnone := List.any_eq_false.1 hc.1 a ha
      simpa using hnone
    · rw [if_neg hc]
      exact ih _ h

/-- A list whose image under f has no duplicates contains at most one
element mapped to any given value. -/
theorem length_filter_le_one_of_nodup_map {α β : Type} [BEq β] [LawfulBEq β]
    (f : α → β) (v : β) :
    ∀ l : List α, (l.map f).Nodup → (l.filter (fun x => f x == v)).length ≤ 1 := by
  intro l
  induction l with
  | nil => intro _; simp
  | cons a t ih =>
    intro h
    rw [List.map_cons, List.nodup_cons] at h
    rw [List.filter_cons]
    by_cases hfa : (f a == v) = true
    · have ht : t.filter (fun x => f x == v) = [] := by
        rw [List.filter_eq_nil_iff]
        intro x hx hbeq
        apply h.1
        have hfx : f x = v := by simpa using hbeq
        have hfav : f a = v := by simpa using hfa
        rw [show f a = f x from hfav.trans hfx.symm]
        exact List.mem_map_of_mem f hx
      simp [hfa, ht]
    · simp only [hfa, if_false]
      exact ih h.2

/-- One iteration never fetches beyond MAX_DEPTH: the dequeue gate skips
any entry whose depth exceeds it. -/
theorem crawl_step_fetched_depth (cfg : Config) (netloc : String → String)
    (urljoin : String → String → String) (site : String → Nat → FetchOutcome)
    (st : CrawlState) (h : ∀ p ∈ st.fetched, p.2 ≤ cfg.maxDepth) :
    ∀ p ∈ (crawl_step cfg netloc urljoin site st).fetched, p.2 ≤ cfg.maxDepth := by
  cases hq : st.queue with
  | nil => rw [crawl_step, hq]; exact h
  | cons hd rest =>
    obtain ⟨u, d⟩ := hd
    by_cases hbad : is_valid_url netloc cfg.skipKeywords (rstripSlash u)
        cfg.domain st.visited = false ∨ cfg.maxDepth < d
    · rw [crawl_step_reject cfg netloc urljoin site st u d rest hq hbad]
      exact h
    · rw [crawl_step_accept cfg netloc urljoin site st u d rest hq hbad]
      intro p hp
      simp only [List.mem_append, List.mem_singleton] at hp
      rcases hp with hold | hnew
      · exact h p hold
      · rw [hnew]
        push_neg at hbad
        exact hbad.2

/-- One iteration only appends insert_data calls whose persisted
retry_count is at most MAX_RETRIES: the retry machine is always entered
with retry counter 0. -/
theorem crawl_step_upsert_bound (cfg : Config) (netloc : String → String)
    (urljoin : String → String → String) (site : String → Nat → FetchOutcome)
    (st : CrawlState)
    (h : ∀ rec ∈ st.upserts, (toRow rec).retry_count ≤ cfg.maxRetries) :
    ∀ rec ∈ (crawl_step cfg netloc urljoin site st).upserts,
      (toRow rec).retry_count ≤ cfg.maxRetries := by
  cases hq : st.queue with
  | nil => rw [crawl_step, hq]; exact h
  | cons hd rest =>
    obtain ⟨u, d⟩ := hd
    by_cases hbad : is_valid_url netloc cfg.skipKeywords (rstripSlash u)
        cfg.domain st.visited = false ∨ cfg.maxDepth < d
    · rw [crawl_step_reject cfg netloc urljoin site st u d rest hq hbad]
      exact h
    · rw [crawl_step_accept cfg netloc urljoin site st u d rest hq hbad]
      intro rec hrec
      simp only [List.mem_append] at hrec
      rcases hrec with hold | hnew
      · exact h rec hold
      · have := scrapeAux_retry_bound (site (rstripSlash u)) (rstripSlash u) d
          (cfg.maxRetries - 0) 0 rec hnew
        omega

/-- One iteration preserves the at-most-once discipline: fetched URLs
are pairwise distinct, each is recorded in the visited set, and each is
in normalized form. -/
theorem crawl_step_fetched_once (cfg : Config) (netloc : String → String)
    (urljoin : String → String → String) (site : String → Nat → FetchOutcome)
    (st : CrawlState)
    (h : (st.fetched.map Prod.fst).Nodup ∧ (∀ p ∈ st.fetched, p.1 ∈ st.visited) ∧
      ∀ p ∈ st.fetched, rstripSlash p.1 = p.1) :
    ((crawl_step cfg netloc urljoin site st).fetched.map Prod.fst).Nodup ∧
      (∀ p ∈ (crawl_step cfg netloc urljoin site st).fetched,
        p.1 ∈ (crawl_step cfg netloc urljoin site st).visited) ∧
      ∀ p ∈ (crawl_step cfg netloc urljoin site st).fetched,
        rstripSlash p.1 = p.1 := by
  cases hq : st.queue with
  | nil => rw [crawl_step, hq]; exact h
  | cons hd rest =>
    obtain ⟨u, d⟩ := hd
    by_cases hbad : is_valid_url netloc cfg.skipKeywords (rstripSlash u)
        cfg.domain st.visited = false ∨ cfg.maxDepth < d
    · rw [crawl_step_reject cfg netloc urljoin site st u d rest hq hbad]
      exact h
    · rw [crawl_step_accept cfg netloc urljoin site st u d rest hq hbad]
      push_neg at hbad
      have hvalid : is_valid_url netloc cfg.skipKeywords (rstripSlash u)
          cfg.domain st.visited = true := by
        cases hb : is_valid_url netloc cfg.skipKeywords (rstripSlash u)
            cfg.domain st.visited
        · exact absurd hb hbad.1
        · rfl
      have hnotvis : rstripSlash u ∉ st.visited := by
        have := is_valid_url_not_visited netloc cfg.skipKeywords (rstripSlash u)
          cfg.domain st.visited hvalid
        rwa [rstripSlash_idem] at this
      refine ⟨?_, ?_, ?_⟩
      · simp only [List.map_append, List.map_cons, List.map_nil]
        rw [List.nodup_append]
        refine ⟨h.1, List.nodup_singleton _, ?_⟩
        intro a ha hb
        simp only [List.mem_singleton] at hb
        subst hb
        obtain ⟨p, hp, hpa⟩ := List.mem_map.1 ha
        exact hnotvis (hpa ▸ h.2.1 p hp)
      · intro p hp
        simp only [List.mem_append, List.mem_singleton] at hp
        rcases hp with hold | hnew
        · exact List.mem_append_left _ (h.2.1 p hold)
        · rw [hnew]
          exact List.mem_append_right _ (List.mem_singleton_self _)
      · intro p hp
        simp only [List.mem_append, List.mem_singleton] at hp
        rcases hp with hold | hnew
        · exact h.2.2 p hold
        · rw [hnew]
          exact rstripSlash_idem u

/-! ## Concrete scenarios used by witnesses and counterexamples -/

/-- A session for which every attempt raises TimeoutException. -/
def timeoutFetch : Nat → FetchOutcome := fun _ => .timeout

/-- An extraction result with no title element and empty fields. -/
def c3extract : Extracted :=
  { titleString := none, content := "", h1_tags := "", h2_tags := "",
    h3_tags := "", meta_description := "", meta_keywords := "" }

/-- Recycle-interval-2 configuration on the domain x with depth 1. -/
def c3cfg : Config :=
  { domain := "x", maxDepth := 1, restartInterval := 2, maxRetries := 0,
    pageLimit := 0, skipKeywords := [] }

/-- netloc oracle for the concrete site: every URL is on domain x. -/
def c3netloc : String → String := fun _ => "x"

/-- urljoin oracle for the concrete site: the anchors are absolute. -/
def c3urljoin : String → String → String := fun _ href => href

/-- A four-page site: the seed links to three further pages. -/
def c3site : String → Nat → FetchOutcome := fun u _ =>
  if u == "http://x/p1" then
    .ok c3extract ["http://x/p2", "http://x/p3", "http://x/p4"]
  else .ok c3extract []

/-- The crawl of the four-page site, pages 1,2,3,4 fetched in order. -/
def c3run : CrawlState :=
  crawl_loop c3cfg c3netloc c3urljoin c3site 10 (initState "http://x/p1")

/-- A depth-0 configuration, otherwise as the four-page scenario. -/
def c5cfg : Config :=
  { domain := "x", maxDepth := 0, restartInterval := 2, maxRetries := 0,
    pageLimit := 0, skipKeywords := [] }

/-- An extraction result whose title element holds only whitespace. -/
def wsTitleExtract : Extracted :=
  { titleString := some " ", content := "", h1_tags := "", h2_tags := "",
    h3_tags := "", meta_description := "", meta_keywords := "" }

/-! ## Claims -/

/-- C1 (amended): when every attempt up to the retry cap fails, exactly
one terminal record is persisted and returned; its content fields are
empty and its status is failed for timeout exhaustion and error for any
other exhausted exception; however the terminal dictionary omits the
retry_count key (none), so the persisted retry_count is the .get default
0, not the final retry count of the attempt sequence. -/
theorem scrape_exhaustion_terminal (fetch : Nat → FetchOutcome) (maxRetries : Nat)
    (url : String) (depth : Nat)
    (hfail : ∀ i, i ≤ maxRetries → (fetch i).isOk = false) :
    (scrape_page_with_retry fetch maxRetries url depth 0).upserts =
        [(scrape_page_with_retry fetch maxRetries url depth 0).record] ∧
    (scrape_page_with_retry fetch maxRetries url depth 0).ok = false ∧
    (scrape_page_with_retry fetch maxRetries url depth 0).record.content = "" ∧
    (scrape_page_with_retry fetch maxRetries url depth 0).record.h1_tags = "" ∧
    (scrape_page_with_retry fetch maxRetries url depth 0).record.h2_tags = "" ∧
    (scrape_page_with_retry fetch maxRetries url depth 0).record.h3_tags = "" ∧
    (scrape_page_with_retry fetch maxRetries url depth 0).record.meta_description = "" ∧
    (scrape_page_with_retry fetch maxRetries url depth 0).record.meta_keywords = "" ∧
    (scrape_page_with_retry fetch maxRetries url depth 0).record.status =
      (match fetch maxRetries with | .timeout => "failed" | _ => "error") ∧
    (scrape_page_with_retry fetch maxRetries url depth 0).record.retry_count = none ∧
    (toRow (scrape_page_with_retry fetch maxRetries url depth 0).record).retry_count = 0 := by
  have hfail' : ∀ i, 0 ≤ i → i ≤ 0 + maxRetries → (fetch i).isOk = false := by
    intro i _ h2
    exact hfail i (by omega)
  have hres := scrapeAux_exhaust fetch url depth maxRetries 0 hfail'
  unfold scrape_page_with_retry
  rw [Nat.sub_zero, hres]
  simp only [Nat.zero_add]
  cases hlast : fetch maxRetries with
  | ok e links =>
    have := hfail maxRetries (Nat.le_refl _)
    rw [hlast] at this
    cases this
  | timeout => simp [exhaustRecord, hlast, failedData, toRow]
  | exn => simp [exhaustRecord, hlast, failedData, toRow]

/-- Witness for C1 at a concrete input: all-timeout session, cap 1. -/
theorem scrape_exhaustion_terminal_witness :
    (scrape_page_with_retry timeoutFetch 1 "http://x/a" 0 0).record.retry_count = none ∧
    (toRow (scrape_page_with_retry timeoutFetch 1 "http://x/a" 0 0).record).retry_count = 0 := by
  obtain ⟨-, -, -, -, -, -, -, -, -, h10, h11⟩ :=
    scrape_exhaustion_terminal timeoutFetch 1 "http://x/a" 0 (fun i _ => rfl)
  exact ⟨h10, h11⟩

/-- Counterexample to C1 as stated: with retry cap 1 and all attempts
timing out, the attempt sequence ends with retry count 1 (two attempts),
yet the persisted retry_count is 0, not the final retry count. -/
theorem scrape_exhaustion_retry_count_counterexample :
    (scrape_page_with_retry timeoutFetch 1 "http://x/a" 0 0).record.status = "failed" ∧
    (scrape_page_with_retry timeoutFetch 1 "http://x/a" 0 0).attempts = 2 ∧
    (toRow (scrape_page_with_retry timeoutFetch 1 "http://x/a" 0 0).record).retry_count = 0 ∧
    (toRow (scrape_page_with_retry timeoutFetch 1 "http://x/a" 0 0).record).retry_count ≠ 1 := by
  decide

/-- C2: entered with retry counter 0 and any cap, the retry machine makes
at most maxRetries + 1 navigation attempts and performs exactly one
persistence upsert, on the single terminal record it returns. -/
theorem scrape_terminates_single_upsert (fetch : Nat → FetchOutcome) (maxRetries : Nat)
    (url : String) (depth : Nat) :
    (scrape_page_with_retry fetch maxRetries url depth 0).attempts ≤ maxRetries + 1 ∧
    (scrape_page_with_retry fetch maxRetries url depth 0).upserts =
      [(scrape_page_with_retry fetch maxRetries url depth 0).record] := by
  unfold scrape_page_with_retry
  rw [Nat.sub_zero]
  exact ⟨scrapeAux_attempts fetch url depth maxRetries 0,
         scrapeAux_upserts fetch url depth maxRetries 0⟩

/-- Counterexample to C3 as stated: with recycle interval 2 over pages
1,2,3,4 fetched in order, the recycle events fall immediately before the
fetches of pages 2 and 4 (the counter is incremented and tested before
the page is scraped), not after pages 2 and 4. -/
theorem recycle_cadence_counterexample :
    c3run.events =
      [.page "http://x/p1" 1, .recycle, .page "http://x/p2" 2,
       .page "http://x/p3" 3, .recycle, .page "http://x/p4" 4] ∧
    c3run.events ≠
      [.page "http://x/p1" 1, .page "http://x/p2" 2, .recycle,
       .page "http://x/p3" 3, .page "http://x/p4" 4, .recycle] := by
  decide

/-- C3 (amended): with recycle interval 2, the crawl fetches pages
1,2,3,4 in order and the session is recycled exactly twice, immediately
before the fetches of pages 2 and 4, never in the middle of a page's
fetch attempt sequence. -/
theorem recycle_cadence_amended :
    c3run.fetched = [("http://x/p1", 0), ("http://x/p2", 1),
      ("http://x/p3", 1), ("http://x/p4", 1)] ∧
    c3run.events =
      [.page "http://x/p1" 1, .recycle, .page "http://x/p2" 2,
       .page "http://x/p3" 3, .recycle, .page "http://x/p4" 4] ∧
    (c3run.events.filter (fun e => e == CrawlEvent.recycle)).length = 2 := by
  decide

/-- Counterexample to C4 as stated: normalization does not remove
fragments. A URL differing from a visited URL only by its fragment is
accepted by the validator (under the claim it would be rejected as
visited), and rstrip normalization leaves the fragment in place. -/
theorem normalization_fragment_counterexample :
    is_valid_url (fun _ => "x") [] "http://x/a#s" "x" ["http://x/a"] = true ∧
    rstripSlash "http://x/a#s" ≠ rstripSlash "http://x/a" := by
  decide

/-- C4 (amended): the only normalization is stripping trailing slashes,
and that normalization is applied before the visited-set comparison,
before the pending-queue duplicate check, and to the persistence key of
every upserted record; fragments are not removed. -/
theorem normalization_slash_only :
    (∀ (netloc : String → String) (kws : List String) (url domain : String)
       (visited : List String), rstripSlash url ∈ visited →
       is_valid_url netloc kws url domain visited = false)
  ∧ (∀ (netloc : String → String) (urljoin : String → String → String)
       (kws : List String) (domain : String) (visited : List String)
       (base : String) (d : Nat) (hrefs : List String)
       (queue : List (String × Nat)),
       queue.Pairwise (fun a b => rstripSlash a.1 ≠ rstripSlash b.1) →
       (enqueueLinks netloc urljoin kws domain visited base d hrefs queue).Pairwise
         (fun a b => rstripSlash a.1 ≠ rstripSlash b.1))
  ∧ (∀ (fetch : Nat → FetchOutcome) (maxRetries : Nat) (url : String)
       (depth retry_count : Nat) (rec : ScrapedData),
       rec ∈ (scrape_page_with_retry fetch maxRetries url depth retry_count).upserts →
       (toRow rec).url = rstripSlash url) := by
  refine ⟨is_valid_url_of_visited, enqueueLinks_pairwise, ?_⟩
  intro fetch maxRetries url depth retry_count rec hrec
  have := scrapeAux_url fetch url depth (maxRetries - retry_count) retry_count rec hrec
  rw [show (toRow rec).url = rec.url from rfl, this]

/-- Witness for C4 (amended) at concrete inputs. -/
theorem normalization_slash_only_witness :
    is_valid_url (fun _ => "x") [] "http://x/a/" "x" ["http://x/a"] = false ∧
    (enqueueLinks (fun _ => "x") (fun _ href => href) [] "x" [] "http://x/a" 0
        ["http://x/b"] [("http://x/c", 1)]).Pairwise
      (fun a b => rstripSlash a.1 ≠ rstripSlash b.1) ∧
    (toRow (scrape_page_with_retry timeoutFetch 0 "http://x/a/" 0 0).record).url =
      rstripSlash "http://x/a/" :=
  ⟨normalization_slash_only.1 _ _ _ _ _ (by decide),
   normalization_slash_only.2.1 _ _ _ _ _ _ _ _ _ (List.pairwise_singleton _ _),
   normalization_slash_only.2.2 timeoutFetch 0 "http://x/a/" 0 0
     (scrape_page_with_retry timeoutFetch 0 "http://x/a/" 0 0).record (by decide)⟩

/-- C5: every entry appended by link discovery carries its parent's
depth plus one; no fetched entry exceeds MAX_DEPTH; and with MAX_DEPTH 0
at most the seed is fetched and link discovery never appends anything. -/
theorem crawl_depth_correct :
    (∀ (netloc : String → String) (urljoin : String → String → String)
       (kws : List String) (domain : String) (visited : List String)
       (base : String) (d : Nat) (hrefs : List String)
       (queue : List (String × Nat)) (e : String × Nat),
       e ∈ enqueueLinks netloc urljoin kws domain visited base d hrefs queue →
       e ∈ queue ∨ e.2 = d + 1)
  ∧ (∀ (cfg : Config) (netloc : String → String)
       (urljoin : String → String → String) (site : String → Nat → FetchOutcome)
       (seed : String) (fuel : Nat) (p : String × Nat),
       p ∈ (crawl_loop cfg netloc urljoin site fuel (initState seed)).fetched →
       p.2 ≤ cfg.maxDepth)
  ∧ (∀ (cfg : Config) (netloc : String → String)
       (urljoin : String → String → String) (site : String → Nat → FetchOutcome)
       (seed : String) (fuel : Nat), cfg.maxDepth = 0 →
       (crawl_loop cfg netloc urljoin site fuel (initState seed)).enqueuedLog = [] ∧
       ((crawl_loop cfg netloc urljoin site fuel (initState seed)).fetched = [] ∨
        (crawl_loop cfg netloc urljoin site fuel (initState seed)).fetched =
          [(rstripSlash seed, 0)])) := by
  refine ⟨?_, ?_, ?_⟩
  · intro netloc urljoin kws domain visited base d hrefs queue e he
    exact enqueueLinks_mem netloc urljoin kws domain visited base d hrefs queue e he
  · intro cfg netloc urljoin site seed fuel p hp
    exact crawl_loop_inv cfg netloc urljoin site
      (fun st => ∀ q ∈ st.fetched, q.2 ≤ cfg.maxDepth)
      (fun st h => crawl_step_fetched_depth cfg netloc urljoin site st h)
      fuel (initState seed) (by intro q hq; cases hq) p hp
  · intro cfg netloc urljoin site seed fuel h0
    cases fuel with
    | zero => exact ⟨rfl, Or.inl rfl⟩
    | succ n =>
      have hq : (initState seed).queue = [(seed, 0)] := rfl
      rw [crawl_loop, hq]
      rw [if_neg (by simp [initState]; omega)]
      by_cases hbad : is_valid_url netloc cfg.skipKeywords (rstripSlash seed)
          cfg.domain (initState seed).visited = false ∨ cfg.maxDepth < 0
      · rw [crawl_step_reject cfg netloc urljoin site (initState seed) seed 0 [] hq hbad]
        rw [crawl_loop_queue_nil _ _ _ _ n _ rfl]
        exact ⟨rfl, Or.inl rfl⟩
      · rw [crawl_step_accept cfg netloc urljoin site (initState seed) seed 0 [] hq hbad]
        have hnolink : ¬ ((0 : Nat) < cfg.maxDepth ∧
            (scrape_page_with_retry (site (rstripSlash seed)) cfg.maxRetries
              (rstripSlash seed) 0 0).ok = true) := by
          rw [h0]
          intro hcontra
          exact Nat.lt_irrefl 0 hcontra.1
        rw [crawl_loop_queue_nil _ _ _ _ n _ (by simp [hnolink])]
        simp [initState, hnolink]

/-- Witness for C5 at concrete inputs: a discovered link at depth 1, a
fetched depth-1 page in the four-page crawl, and the depth-0 crawl. -/
theorem crawl_depth_correct_witness :
    (("http://x/p2", 1) ∈ ([] : List (String × Nat)) ∨
      (("http://x/p2", 1) : String × Nat).2 = 0 + 1) ∧
    (("http://x/p2", 1) : String × Nat).2 ≤ c3cfg.maxDepth ∧
    ((crawl_loop c5cfg c3netloc c3urljoin c3site 10
        (initState "http://x/p1")).enqueuedLog = [] ∧
     ((crawl_loop c5cfg c3netloc c3urljoin c3site 10
        (initState "http://x/p1")).fetched = [] ∨
      (crawl_loop c5cfg c3netloc c3urljoin c3site 10
        (initState "http://x/p1")).fetched = [(rstripSlash "http://x/p1", 0)])) :=
  ⟨crawl_depth_correct.1 c3netloc c3urljoin [] "x" ["http://x/p1"] "http://x/p1" 0
     ["http://x/p2"] [] ("http://x/p2", 1) (by decide),
   crawl_depth_correct.2.1 c3cfg c3netloc c3urljoin c3site "http://x/p1" 10
     ("http://x/p2", 1) (by decide),
   crawl_depth_correct.2.2 c5cfg c3netloc c3urljoin c3site "http://x/p1" 10 rfl⟩

/-- C6: every record persisted over a whole crawl run satisfies
0 ≤ retry_count ≤ MAX_RETRIES, because the retry machine is entered with
counter 0, a success at level k ≤ MAX_RETRIES records k, and a terminal
failure record persists the default 0. -/
theorem crawl_persisted_retry_bound (cfg : Config) (netloc : String → String)
    (urljoin : String → String → String) (site : String → Nat → FetchOutcome)
    (seed : String) (fuel : Nat) :
    ∀ rec ∈ (crawl_loop cfg netloc urljoin site fuel (initState seed)).upserts,
      0 ≤ (toRow rec).retry_count ∧ (toRow rec).retry_count ≤ cfg.maxRetries := by
  have hinv := crawl_loop_inv cfg netloc urljoin site
    (fun st => ∀ rec ∈ st.upserts, (toRow rec).retry_count ≤ cfg.maxRetries)
    (fun st h => crawl_step_upsert_bound cfg netloc urljoin site st h)
    fuel (initState seed) (by intro rec hrec; cases hrec)
  intro rec hrec
  exact ⟨Nat.zero_le _, hinv rec hrec⟩

/-- Witness for C6: the seed page's persisted record in the four-page
crawl. -/
theorem crawl_persisted_retry_bound_witness :
    0 ≤ (toRow (successData "http://x/p1" 0 0 c3extract)).retry_count ∧
    (toRow (successData "http://x/p1" 0 0 c3extract)).retry_count ≤ c3cfg.maxRetries :=
  crawl_persisted_retry_bound c3cfg c3netloc c3urljoin c3site "http://x/p1" 10
    (successData "http://x/p1" 0 0 c3extract) (by decide)

/-- C7: normalization is idempotent, and over any whole crawl run the
number of fetches of any given normalized URL is at most one — the
visited set is keyed by the normalized URL and checked by the validator
at dequeue time, so enqueueing http://x/a and http://x/a/ yields at most
one fetch. -/
theorem crawl_fetch_at_most_once (cfg : Config) (netloc : String → String)
    (urljoin : String → String → String) (site : String → Nat → FetchOutcome)
    (seed v : String) (fuel : Nat) :
    rstripSlash (rstripSlash v) = rstripSlash v ∧
    ((crawl_loop cfg netloc urljoin site fuel (initState seed)).fetched.filter
        (fun p => rstripSlash p.1 == v)).length ≤ 1 := by
  refine ⟨rstripSlash_idem v, ?_⟩
  have hinv := crawl_loop_inv cfg netloc urljoin site
    (fun st => (st.fetched.map Prod.fst).Nodup ∧
      (∀ p ∈ st.fetched, p.1 ∈ st.visited) ∧
      ∀ p ∈ st.fetched, rstripSlash p.1 = p.1)
    (fun st h => crawl_step_fetched_once cfg netloc urljoin site st h)
    fuel (initState seed)
    (by refine ⟨by simp [initState], ?_, ?_⟩ <;> (intro p hp; cases hp))
  obtain ⟨h1, h2, h3⟩ := hinv
  have hmapeq : (crawl_loop cfg netloc urljoin site fuel (initState seed)).fetched.map
      (fun p => rstripSlash p.1) =
      (crawl_loop cfg netloc urljoin site fuel (initState seed)).fetched.map Prod.fst :=
    List.map_congr_left (fun p hp => h3 p hp)
  have hnodup : ((crawl_loop cfg netloc urljoin site fuel
      (initState seed)).fetched.map (fun p => rstripSlash p.1)).Nodup := by
    rw [hmapeq]; exact h1
  exact length_filter_le_one_of_nodup_map (fun p => rstripSlash p.1) v
    (crawl_loop cfg netloc urljoin site fuel (initState seed)).fetched hnodup

/-- C8: a database error during one upsert is contained by insert_data:
the transaction is rolled back (committed rows unchanged, pending work
discarded), the function returns normally because the source catches
psycopg2.Error, and a subsequent upsert on the same connection behaves
exactly as if the failed one had never happened. -/
theorem insert_data_rollback_contained (conn : PgConn) (d d2 : ScrapedData)
    (h : conn.pending = conn.committed) :
    (insert_data conn d true).committed = conn.committed ∧
    (insert_data conn d true).pending = conn.committed ∧
    insert_data (insert_data conn d true) d2 false = insert_data conn d2 false := by
  refine ⟨rfl, rfl, ?_⟩
  simp [insert_data, h]

/-- Witness for C8 at a concrete connection and records. -/
theorem insert_data_rollback_contained_witness :
    (insert_data { committed := [], pending := [] }
        (failedData "http://x/a" 0 "Failed to load" "failed") true).committed = [] ∧
    (insert_data { committed := [], pending := [] }
        (failedData "http://x/a" 0 "Failed to load" "failed") true).pending = [] ∧
    insert_data (insert_data { committed := [], pending := [] }
        (failedData "http://x/a" 0 "Failed to load" "failed") true)
        (successData "http://x/b" 0 0 c3extract) false =
      insert_data { committed := [], pending := [] }
        (successData "http://x/b" 0 0 c3extract) false :=
  insert_data_rollback_contained { committed := [], pending := [] }
    (failedData "http://x/a" 0 "Failed to load" "failed")
    (successData "http://x/b" 0 0 c3extract) rfl

/-- Counterexample to C9 as stated: a title element holding only
whitespace produces the empty string as the record's title — neither the
element's text nor the sentinel No Title, although its stripped text is
empty. -/
theorem extract_title_counterexample :
    (successData "http://x/a" 0 0 wsTitleExtract).title = "" ∧
    (successData "http://x/a" 0 0 wsTitleExtract).title ≠ " " ∧
    (successData "http://x/a" 0 0 wsTitleExtract).title ≠ "No Title" := by
  decide

/-- C9 (amended): the record's title is the whitespace-stripped string of
the first title element; the sentinel No Title is used exactly when the
element is absent, has no string child, or its string is empty — a
whitespace-only title therefore yields the empty string, not the
sentinel. -/
theorem extract_title_amended :
    extractTitle none = "No Title" ∧
    extractTitle (some "") = "No Title" ∧
    ∀ s : String, s ≠ "" → extractTitle (some s) = pyStrip s := by
  refine ⟨rfl, rfl, ?_⟩
  intro s hs
  simp [extractTitle, hs]

/-- Witness for C9 (amended) at a concrete title string. -/
theorem extract_title_amended_witness :
    extractTitle (some " Welcome ") = pyStrip " Welcome " :=
  extract_title_amended.2.2 " Welcome " (by decide)

/-- C10: the source truncates the pages table before create_tables runs,
so when the table does not exist at run start the truncation's database
error reaches the top-level handler: the crawl loop is never entered, no
page is fetched, and the database is left as found. -/
theorem crawl_missing_table_aborts (db : DbState) (cfg : Config)
    (netloc : String → String) (urljoin : String → String → String)
    (site : String → Nat → FetchOutcome) (seed : String) (fuel : Nat)
    (h : db.pages = none) :
    crawl_website db cfg netloc urljoin site seed fuel = (db, initState seed) ∧
    (crawl_website db cfg netloc urljoin site seed fuel).2.fetched = [] ∧
    (crawl_website db cfg netloc urljoin site seed fuel).2.pagesCount = 0 := by
  have htr : truncate_pages db = .error "relation pages does not exist" := by
    unfold truncate_pages
    rw [h]
  refine ⟨?_, ?_, ?_⟩ <;> simp [crawl_website, htr, initState]

/-- Witness for C10: missing pages table on the four-page site. -/
theorem crawl_missing_table_aborts_witness :
    crawl_website { pages := none } c3cfg c3netloc c3urljoin c3site
        "http://x/p1" 5 = ({ pages := none }, initState "http://x/p1") :=
  (crawl_missing_table_aborts { pages := none } c3cfg c3netloc c3urljoin c3site
    "http://x/p1" 5 rfl).1

end Webscraper
